import Mathlib

set_option maxHeartbeats 1000000

/-! Verification development for the STC (Star Temporal Classification) loss
module.  The automaton data model and the operations below are shallow
embeddings of the Python source in criterions/stc.py; weights are kept in a
type parameter W (the source stores log-domain floating-point weights, and
structural facts hold for any weight type), machine reals are modelled by
the mathematical reals where numeric values matter. -/

/-- Reserved blank index (source constant STC_BLANK_IDX; blank is required to
be zero by the implementation). -/
def STC_BLANK_IDX : Nat := 0

/-- One automaton arc: source node, destination node, input label, output
label and a weight. -/
structure Arc (W : Type) where
  src : Nat
  dst : Nat
  ilabel : Nat
  olabel : Nat
  weight : W
deriving DecidableEq

/-- Automaton as built through the gtn Graph API used by the source: a list
of nodes carrying (start flag, accept flag), and a list of arcs.  add_node
appends a node and returns its index; add_arc appends an arc. -/
structure Graph (W : Type) where
  nodes : List (Bool × Bool)
  arcs : List (Arc W)
deriving DecidableEq

def Graph.add_node {W : Type} (g : Graph W) (start accept : Bool) : Graph W × Nat :=
  (⟨g.nodes ++ [(start, accept)], g.arcs⟩, g.nodes.length)

/-- add_arc with explicit input label, output label and weight. -/
def Graph.add_arc_w {W : Type} (g : Graph W) (src dst il ol : Nat) (w : W) : Graph W :=
  ⟨g.nodes, g.arcs ++ [⟨src, dst, il, ol, w⟩]⟩

/-- add_arc with a single label; gtn gives such arcs weight zero. -/
def Graph.add_arc {W : Type} [Zero W] (g : Graph W) (src dst lbl : Nat) : Graph W :=
  g.add_arc_w src dst lbl lbl 0

def Graph.emptyGraph {W : Type} : Graph W := ⟨[], []⟩

/-- Label of base-chain state l: the target token at position (l-1)/2 for odd
l, blank for even l (source: target[idx] if l % 2 else STC_BLANK_IDX). -/
def chainLabel (target : List Nat) (l : Nat) : Nat :=
  if l % 2 = 1 then target.getD ((l - 1) / 2) 0 else STC_BLANK_IDX

/-- Start/accept flags of base-chain state l out of S; the comparisons are
over the integers because the source compares Python ints (for S = 1 the
value S - 2 is negative and never equal to l). -/
def chainNode (S l : Nat) : Bool × Bool :=
  (decide (l = 0), decide ((l : Int) = (S : Int) - 1 ∨ (l : Int) = (S : Int) - 2))

/-- Arcs appended by iteration l of the base-chain loop of create_stc_graph:
a self-loop when the label is blank, an arc from l-1 for l > 0, and a skip
arc from l-2 at odd l > 1. -/
def chainArcsAt {W : Type} [Zero W] (target : List Nat) (l : Nat) : List (Arc W) :=
  let lbl := chainLabel target l
  (if lbl = STC_BLANK_IDX then [⟨l, l, lbl, lbl, 0⟩] else []) ++
  (if 0 < l then [⟨l - 1, l, lbl, lbl, 0⟩] else []) ++
  (if l % 2 = 1 ∧ 1 < l then [⟨l - 2, l, lbl, lbl, 0⟩] else [])

/-- One iteration of the first loop of create_stc_graph. -/
def chainStep {W : Type} [Zero W] (target : List Nat) (S : Nat) (g : Graph W) (l : Nat) :
    Graph W :=
  let lbl := chainLabel target l
  let g := (g.add_node (decide (l = 0))
      (decide ((l : Int) = (S : Int) - 1 ∨ (l : Int) = (S : Int) - 2))).1
  let g := if lbl = STC_BLANK_IDX then g.add_arc l l lbl else g
  let g := if 0 < l then g.add_arc (l - 1) l lbl else g
  if l % 2 = 1 ∧ 1 < l then g.add_arc (l - 2) l lbl else g

/-- Star-state flags for gap l: never a start state, accept exactly at the
final gap l = L. -/
def starNode (L l : Nat) : Bool × Bool := (false, decide (l = L))

/-- Label used on the wildcard arcs of gap l: the plain star index at the
final gap, and the star-slash-token index star_idx + target[l] at internal
gaps. -/
def starIdxLabel (target : List Nat) (star_idx L l : Nat) : Nat :=
  if l = L then star_idx else star_idx + target.getD l 0

/-- Arcs appended by iteration l of the star loop of create_stc_graph, where
the star node allocated at that iteration has index S + l: entry arc from
2l-1 when it exists, entry arc from 2l, self-loop (all three at the penalty
weight), an arc into chain state 2l+1 labeled with the following token at
internal gaps, and a blank exit arc back to chain state 2l. -/
def starArcsAt {W : Type} [Zero W] (target : List Nat) (star_idx : Nat) (w : W)
    (L S l : Nat) : List (Arc W) :=
  let idx := starIdxLabel target star_idx L l
  (if 0 < l then [⟨2 * l - 1, S + l, idx, idx, w⟩] else []) ++
  [⟨2 * l, S + l, idx, idx, w⟩, ⟨S + l, S + l, idx, idx, w⟩] ++
  (if l < L then [⟨S + l, 2 * l + 1, target.getD l 0, target.getD l 0, 0⟩] else []) ++
  [⟨S + l, 2 * l, STC_BLANK_IDX, STC_BLANK_IDX, 0⟩]

/-- One iteration of the second loop of create_stc_graph. -/
def starStep {W : Type} [Zero W] (target : List Nat) (star_idx : Nat) (w : W) (L : Nat)
    (g : Graph W) (l : Nat) : Graph W :=
  let nd := g.add_node false (decide (l = L))
  let g := nd.1
  let c1 := nd.2
  let idx := if l = L then star_idx else star_idx + target.getD l 0
  let g := if 0 < l then g.add_arc_w (2 * l - 1) c1 idx idx w else g
  let g := g.add_arc_w (2 * l) c1 idx idx w
  let g := g.add_arc_w c1 c1 idx idx w
  let g := if l < L then g.add_arc c1 (2 * l + 1) (target.getD l 0) else g
  g.add_arc c1 (2 * l) STC_BLANK_IDX

/-- STC label graph builder, translated from
STCLossFunction.create_stc_graph.  The source computes the arc weight as
math.log(prob); here the already-logarithmized penalty is the parameter
logprob, supplied as Real.log prob by the loss driver below. -/
def STCLossFunction.create_stc_graph {W : Type} [Zero W] (target : List Nat)
    (star_idx : Nat) (logprob : W) : Graph W :=
  let L := target.length
  let S := 2 * L + 1
  let g := (List.range S).foldl (chainStep target S) Graph.emptyGraph
  (List.range (L + 1)).foldl (starStep target star_idx logprob L) g

/-- Rank-3 tensor over an arbitrary scalar type: three dimensions plus an
index function.  The source works with torch float tensors; numeric claims
instantiate the scalar type with the reals. -/
structure TensorF (α : Type) where
  d0 : Nat
  d1 : Nat
  d2 : Nat
  val : Nat → Nat → Nat → α

abbrev Tensor3 : Type := TensorF Real

/-- tensor.permute(1, 0, 2): swap the first two dimensions. -/
def permute102 {α : Type} (x : TensorF α) : TensorF α :=
  ⟨x.d1, x.d0, x.d2, fun i j k => x.val j i k⟩

/-- The per-batch class selection of STC.forward: the blank index followed by
the distinct token ids referenced by the targets (source:
[STC_BLANK_IDX] + list(set(...)); the set iteration order is modelled as
first-occurrence order, and a literal blank token inside a target is kept as
a duplicate entry, exactly as in the source). -/
def selectIdx (targets : List (List Nat)) : List Nat :=
  STC_BLANK_IDX :: targets.flatten.dedup

/-- The token remapping dictionary of STC.forward: token t maps to the index
of its last occurrence in the selection list (later enumerate entries
overwrite earlier ones in the Python dict). -/
def targetMap (sel : List Nat) (t : Nat) : Nat :=
  sel.enum.foldl (fun acc p => if p.2 = t then p.1 else acc) 0

/-- The stabilization epsilon 1e-7 used by STC.logsubexp. -/
noncomputable def stcEps : Real := 1 / 10000000

/-- STC.logsubexp, translated from the source: a + log1p(1e-7 - exp(b - a)),
elementwise (the tensor tiling only broadcasts the same scalar operation). -/
noncomputable def STC.logsubexp (a b : Real) : Real :=
  a + Real.log (1 + (stcEps - Real.exp (b - a)))

/-- The wildcard (star) channel of STC.forward: logsumexp of the original
log-probabilities over all non-blank classes. -/
noncomputable def wildcardLse (lp : Tensor3) (b t : Nat) : Real :=
  Real.log (∑ c ∈ Finset.Ico 1 lp.d2, Real.exp (lp.val b t c))

/-- The vocabulary-reduction preprocessing of STC.forward on a (B, T, C)
tensor: channels 0..K-1 are the selected classes, channel K is the wildcard
logsumexp channel, and channels K+1..2K-1 are the logsubexp(wildcard, class)
channels for the selection-list entries after the first. -/
noncomputable def reducedTensor (lp : Tensor3) (targets : List (List Nat)) : Tensor3 :=
  let sel := selectIdx targets
  let K := sel.length
  ⟨lp.d0, lp.d1, K + 1 + (K - 1), fun b t k =>
    if k < K then lp.val b t (sel.getD k 0)
    else if k = K then wildcardLse lp b t
    else STC.logsubexp (wildcardLse lp b t) (lp.val b t (sel.getD (k - K) 0))⟩

/-- Start nodes of a graph paired with the zero initial score. -/
def startPairs (g : Graph Real) : List (Nat × Real) :=
  (g.nodes.enum.filter (fun p => p.2.1)).map (fun p => (p.1, (0 : Real)))

/-- Modelled from the spec: one time step of the composition of the label
acceptor with the emission linear chain (gtn.compose with gtn.linear_graph,
spec sections 4.3 and 4.4, both delegated by the source to the external gtn
library): every acceptor arc whose label is an emission class extends a
pending path, adding the acceptor arc weight and the emission log-probability
of that label at the current frame. -/
def pathExtend (g : Graph Real) (emisRow : Nat → Real) (Cstar : Nat)
    (front : List (Nat × Real)) : List (Nat × Real) :=
  front.flatMap (fun p =>
    (g.arcs.filter (fun a => decide (a.src = p.1 ∧ a.ilabel < Cstar))).map
      (fun a => (a.dst, p.2 + a.weight + emisRow a.ilabel)))

/-- All T-step paths through the acceptor, with end node and accumulated
log-domain score. -/
def pathFront (g : Graph Real) (T Cstar : Nat) (emis : Nat → Nat → Real) :
    List (Nat × Real) :=
  (List.range T).foldl (fun front t => pathExtend g (emis t) Cstar front) (startPairs g)

/-- Modelled from the spec: gtn.forward_score of the composed automaton
(spec section 4.5): the logsumexp over all accepting T-step paths of their
accumulated scores. -/
noncomputable def composedScore (g : Graph Real) (T Cstar : Nat)
    (emis : Nat → Nat → Real) : Real :=
  Real.log ((((pathFront g T Cstar emis).filter
      (fun p => (g.nodes.getD p.1 (false, false)).2)).map
      (fun p => Real.exp p.2)).sum)

/-- Per-example loss of STCLossFunction.forward: the negated forward score of
the composition (gtn.negate of gtn.forward_score of gtn.compose). -/
noncomputable def exampleLoss (crit : Graph Real) (T Cstar : Nat)
    (emis : Nat → Nat → Real) : Real :=
  -(composedScore crit T Cstar emis)

/-- STCLossFunction.forward, translated from the source: reads the input as
(B, T, Cstar), builds the label acceptor per example with star index
C = Cstar / 2 and penalty weight log(prob), raises ValueError for a reduction
outside none/mean (the raise happens inside the per-example worker, hence
only when the batch is nonempty), scales each per-example loss by 1/T under
mean reduction and by 1 otherwise, and returns the batch mean. -/
noncomputable def STCLossFunction.forward (inputs : Tensor3) (targets : List (List Nat))
    (prob : Real) (reduction : String) : Except String Real :=
  let B := inputs.d0
  let T := inputs.d1
  let Cstar := inputs.d2
  let C := Cstar / 2
  if reduction ≠ "none" ∧ reduction ≠ "mean" ∧ 0 < B then
    Except.error "invalid value for reduction"
  else
    Except.ok ((∑ b ∈ Finset.range B,
      exampleLoss (STCLossFunction.create_stc_graph (targets.getD b []) C (Real.log prob))
          T Cstar (fun t c => inputs.val b t c) *
        (if reduction = "mean" ∧ 0 < T then 1 / (T : Real) else 1)) / B)

/-- One time step of path enumeration that additionally records the label
consumed at every frame, used for the gradient model. -/
def traceExtend (g : Graph Real) (emisRow : Nat → Real) (Cstar : Nat)
    (front : List (Nat × (List Nat × Real))) : List (Nat × (List Nat × Real)) :=
  front.flatMap (fun p =>
    (g.arcs.filter (fun a => decide (a.src = p.1 ∧ a.ilabel < Cstar))).map
      (fun a => (a.dst, (p.2.1 ++ [a.ilabel], p.2.2 + a.weight + emisRow a.ilabel))))

/-- All T-step paths with their per-frame label sequences and scores. -/
def pathTraces (g : Graph Real) (T Cstar : Nat) (emis : Nat → Nat → Real) :
    List (Nat × (List Nat × Real)) :=
  (List.range T).foldl (fun front t => traceExtend g (emis t) Cstar front)
    ((g.nodes.enum.filter (fun p => p.2.1)).map (fun p => (p.1, ([], (0 : Real)))))

/-- Modelled from the spec: the gradient scatter of the backward pass (spec
section 4.5, delegated by the source to gtn.backward): the gradient of the
negated forward score with respect to the emission log-probability at frame t
and class c is minus the posterior occupancy, the exp-weighted fraction of
accepting paths that consume class c at frame t. -/
noncomputable def emissionGrad (crit : Graph Real) (T Cstar : Nat)
    (emis : Nat → Nat → Real) (t c : Nat) : Real :=
  let acc := (pathTraces crit T Cstar emis).filter
    (fun p => (crit.nodes.getD p.1 (false, false)).2)
  let num := -(((acc.filter (fun p => decide (p.2.1.getD t Cstar = c))).map
      (fun p => Real.exp p.2.2)).sum)
  let den := (acc.map (fun p => Real.exp p.2.2)).sum
  num / den

/-- STCLossFunction.backward, translated from the source: the per-example
emission gradient is scaled by the same per-example scale as the loss, then
multiplied by grad_output / B. -/
noncomputable def STCLossFunction.backward (inputs : Tensor3) (targets : List (List Nat))
    (prob : Real) (reduction : String) (grad_output : Nat → Nat → Nat → Real)
    (b t c : Nat) : Real :=
  let B := inputs.d0
  let T := inputs.d1
  let Cstar := inputs.d2
  let C := Cstar / 2
  emissionGrad (STCLossFunction.create_stc_graph (targets.getD b []) C (Real.log prob))
      T Cstar (fun t c => inputs.val b t c) t c *
    (if reduction = "mean" ∧ 0 < T then 1 / (T : Real) else 1) *
    grad_output b t c / B

/-- Mutable state of the STC module: penalty schedule parameters, the step
counter, the configured reduction, the training flag of the torch module
(true right after construction), and the stored original vocabulary size used by
the decoder. -/
structure STCState where
  p0 : Real
  plast : Real
  thalf : Real
  nstep : Nat
  reduction : String
  training : Bool
  lastOrigVocab : Option Nat

/-- STC constructor: asserts that the blank index is zero (AssertionError
otherwise) and initializes the step counter to zero; a torch module starts
in training mode. -/
def STC.init (blank_idx : Nat) (p0 plast thalf : Real) (reduction : String) :
    Except String STCState :=
  if blank_idx = STC_BLANK_IDX then
    Except.ok ⟨p0, plast, thalf, 0, reduction, true, none⟩
  else
    Except.error "AssertionError"

/-- STC.forward, translated from the source: in training mode the hidden step
counter is incremented first; the penalty is computed from the schedule with
the updated counter; the input is permuted from (T, B, C) to (B, T, C),
vocabulary-reduced, permuted again, and handed to the loss function together
with the remapped targets; the stored original vocabulary size becomes the
selection-list length.  Returns the loss result and the updated module
state. -/
noncomputable def STC.forward (s : STCState) (inputs : Tensor3)
    (targets : List (List Nat)) : Except String Real × STCState :=
  let s1 := if s.training then
      { s with nstep := s.nstep + 1 }
    else s
  let prob := s.plast + (s.p0 - s.plast) *
    Real.exp (-(s1.nstep : Real) * Real.log 2 / s.thalf)
  let lp := permute102 inputs
  let red := reducedTensor lp targets
  let tg := targets.map (fun tgt => tgt.map (targetMap (selectIdx targets)))
  let s2 := { s1 with lastOrigVocab := some (selectIdx targets).length }
  (STCLossFunction.forward (permute102 red) tg prob s.reduction, s2)

/-- Resolution of the original vocabulary size in STC.viterbi: the stored
value when available, otherwise the conservative estimate min(C / 2, 100). -/
def resolveVocab (lastOrig : Option Nat) (C : Nat) : Nat :=
  match lastOrig with
  | some v => v
  | none => min (C / 2) 100

/-- Index of the first maximal element of a list (torch.argmax semantics);
zero on the empty list. -/
def argmaxIdx {α : Type} [LinearOrder α] : List α → Nat
  | [] => 0
  | x :: xs =>
    (xs.foldl (fun best y =>
      if best.2.1 < y then (best.2.2, y, best.2.2 + 1)
      else (best.1, best.2.1, best.2.2 + 1)) ((0, x, 1) : Nat × α × Nat)).1

/-- One frame of the greedy decoding loop: the clamped token of the frame is
appended when it differs from the previous token and is not blank; the
previous token is always updated. -/
def decodeStep (tokAt : Nat → Nat) (acc : List Nat × Option Nat) (t : Nat) :
    List Nat × Option Nat :=
  (if some (tokAt t) ≠ acc.2 ∧ tokAt t ≠ STC_BLANK_IDX then acc.1 ++ [tokAt t]
   else acc.1, some (tokAt t))

/-- STC.viterbi, translated from the source: permute (T, B, C) to (B, T, C),
resolve the original vocabulary size, then per batch element greedily take
the argmax over the first min(ovs, C) channels of each frame, clamp any token
at or above ovs to blank, and collapse repeats while dropping blanks.  The
scalar type is kept generic over linear orders; the source instantiates it
with floats. -/
def STC.viterbi {α : Type} [LinearOrder α] (lastOrig : Option Nat)
    (inputs : TensorF α) : List (List Nat) :=
  let lp := permute102 inputs
  let B := lp.d0
  let T := lp.d1
  let C := lp.d2
  let ovs := resolveVocab lastOrig C
  (List.range B).map (fun b =>
    ((List.range T).foldl
      (decodeStep (fun t =>
        let tok := argmaxIdx ((List.range (min ovs C)).map (fun c => lp.val b t c))
        if ovs ≤ tok then STC_BLANK_IDX else tok))
      ([], none)).1)

-- Closed-form description of the two building loops.

theorem chainStep_eq {W : Type} [Zero W] (target : List Nat) (S : Nat) (l : Nat)
    (g : Graph W) :
    chainStep target S g l = ⟨g.nodes ++ [chainNode S l], g.arcs ++ chainArcsAt target l⟩ := by
  simp only [chainStep, chainNode, chainArcsAt, Graph.add_node, Graph.add_arc,
    Graph.add_arc_w]
  split_ifs <;> simp

theorem starStep_eq {W : Type} [Zero W] (target : List Nat) (star_idx : Nat) (w : W)
    (L S l : Nat) (g : Graph W) (hg : g.nodes.length = S + l) :
    starStep target star_idx w L g l =
      ⟨g.nodes ++ [starNode L l], g.arcs ++ starArcsAt target star_idx w L S l⟩ := by
  simp only [starStep, starNode, starArcsAt, starIdxLabel, Graph.add_node, Graph.add_arc,
    Graph.add_arc_w, hg]
  split_ifs <;> simp

theorem foldl_build {W : Type} (step : Graph W → Nat → Graph W) (nf : Nat → Bool × Bool)
    (af : Nat → List (Arc W)) (c0 : Nat)
    (h : ∀ (l : Nat) (g : Graph W), g.nodes.length = c0 + l →
      step g l = ⟨g.nodes ++ [nf l], g.arcs ++ af l⟩) :
    ∀ (n a : Nat) (g : Graph W), g.nodes.length = c0 + a →
      (List.range' a n).foldl step g =
        ⟨g.nodes ++ (List.range' a n).map nf, g.arcs ++ (List.range' a n).flatMap af⟩ := by
  intro n
  induction n with
  | zero => intro a g hg; simp
  | succ n ih =>
      intro a g hg
      rw [List.range'_succ]
      simp only [List.foldl_cons, List.map_cons, List.flatMap_cons]
      rw [h a g hg, ih (a + 1) _ (by simp [hg]; omega)]
      simp

theorem create_stc_graph_eq {W : Type} [Zero W] (target : List Nat) (star_idx : Nat)
    (w : W) :
    STCLossFunction.create_stc_graph target star_idx w =
      ⟨(List.range (2 * target.length + 1)).map (chainNode (2 * target.length + 1)) ++
         (List.range (target.length + 1)).map (starNode target.length),
       (List.range (2 * target.length + 1)).flatMap (chainArcsAt target) ++
         (List.range (target.length + 1)).flatMap
           (starArcsAt target star_idx w target.length (2 * target.length + 1))⟩ := by
  have h1 := foldl_build (chainStep target (2 * target.length + 1))
      (chainNode (2 * target.length + 1)) (chainArcsAt target) 0
      (fun l g _ => chainStep_eq target (2 * target.length + 1) l g)
      (2 * target.length + 1) 0 (Graph.emptyGraph : Graph W) (by simp [Graph.emptyGraph])
  simp only [Graph.emptyGraph, List.nil_append] at h1
  have h2 := foldl_build (starStep target star_idx w target.length)
      (starNode target.length)
      (starArcsAt target star_idx w target.length (2 * target.length + 1))
      (2 * target.length + 1)
      (fun l g hg => starStep_eq target star_idx w target.length (2 * target.length + 1) l g hg)
      (target.length + 1) 0
      (⟨(List.range' 0 (2 * target.length + 1)).map (chainNode (2 * target.length + 1)),
        (List.range' 0 (2 * target.length + 1)).flatMap (chainArcsAt target)⟩ : Graph W)
      (by simp)
  unfold STCLossFunction.create_stc_graph Graph.emptyGraph
  simp only [List.range_eq_range']
  rw [h1]
  simpa using h2

/-- C7: for the empty target the builder succeeds and produces exactly one
base blank state that is both start and accept, plus exactly one star state
that is an accept state but not a start state; the arcs are the blank
self-loop, the two wildcard arcs at the penalty weight, and the blank exit
arc from the star state. -/
theorem C7_empty_target {W : Type} [Zero W] (star_idx : Nat) (w : W) :
    (STCLossFunction.create_stc_graph ([] : List Nat) star_idx w).nodes =
        [(true, true), (false, true)] ∧
      (STCLossFunction.create_stc_graph ([] : List Nat) star_idx w).arcs =
        [⟨0, 0, 0, 0, 0⟩, ⟨0, 1, star_idx, star_idx, w⟩, ⟨1, 1, star_idx, star_idx, w⟩,
         ⟨1, 0, 0, 0, 0⟩] := by
  rw [create_stc_graph_eq]
  constructor <;> rfl

theorem getD_append_left_map_range {α : Type} (f : Nat → α) (n : Nat) (rest : List α)
    (d : α) (l : Nat) (h : l < n) :
    (((List.range n).map f) ++ rest).getD l d = f l := by
  rw [List.getD_eq_getElem?_getD, List.getElem?_append_left (by simpa using h)]
  simp [List.getElem?_map, List.getElem?_range, h]

theorem getD_append_right_map_range {α : Type} (f : Nat → α) (n : Nat) (rest : List α)
    (d : α) (l : Nat) (h : n ≤ l) :
    (((List.range n).map f) ++ rest).getD l d = rest.getD (l - n) d := by
  rw [List.getD_eq_getElem?_getD, List.getElem?_append_right (by simpa using h)]
  simp [List.getD_eq_getElem?_getD]

theorem getD_map_range {α : Type} (f : Nat → α) (n : Nat) (d : α) (l : Nat) (h : l < n) :
    ((List.range n).map f).getD l d = f l := by
  rw [List.getD_eq_getElem?_getD]
  simp [List.getElem?_map, List.getElem?_range, h]

/-- C4: the base chain has S = 2L+1 states (the graph holds S + (L+1) nodes in
total, the first S being the chain): state 0 is the unique start state,
exactly states S-1 and S-2 (over the integers, so no second accept state when
L = 0) are accept states among the chain, every even (blank) chain state has
a blank self-loop, and every chain state l > 0 receives an arc from l-1
labeled with the symbol of state l. -/
theorem C4_base_chain {W : Type} [Zero W] (target : List Nat) (star_idx : Nat) (w : W) :
    (STCLossFunction.create_stc_graph target star_idx w).nodes.length
        = (2 * target.length + 1) + (target.length + 1)
    ∧ (∀ l, l < 2 * target.length + 1 →
        (STCLossFunction.create_stc_graph target star_idx w).nodes.getD l (false, false)
          = (decide (l = 0),
             decide ((l : Int) = 2 * (target.length : Int) ∨
               (l : Int) = 2 * (target.length : Int) - 1)))
    ∧ (∀ i, 0 < i →
        ((STCLossFunction.create_stc_graph target star_idx w).nodes.getD i (false, false)).1
          = false)
    ∧ (∀ l, l < 2 * target.length + 1 → l % 2 = 0 →
        Arc.mk l l 0 0 (0 : W) ∈ (STCLossFunction.create_stc_graph target star_idx w).arcs)
    ∧ (∀ l, 0 < l → l < 2 * target.length + 1 →
        Arc.mk (l - 1) l (chainLabel target l) (chainLabel target l) (0 : W)
          ∈ (STCLossFunction.create_stc_graph target star_idx w).arcs) := by
  rw [create_stc_graph_eq]
  refine ⟨by simp, ?_, ?_, ?_, ?_⟩
  · intro l hl
    rw [getD_append_left_map_range _ _ _ _ _ hl]
    simp only [chainNode]
    congr 1
    rw [decide_eq_decide]
    omega
  · intro i hi
    by_cases hcase : i < 2 * target.length + 1
    · rw [getD_append_left_map_range _ _ _ _ _ hcase]
      simp [chainNode]
      omega
    · rw [getD_append_right_map_range _ _ _ _ _ (by omega)]
      by_cases hcase2 : i - (2 * target.length + 1) < target.length + 1
      · rw [getD_map_range _ _ _ _ hcase2]
        simp [starNode]
      · rw [List.getD_eq_getElem?_getD]
        rw [List.getElem?_eq_none (by simpa using hcase2)]
        simp
  · intro l hl heven
    apply List.mem_append_left
    rw [List.mem_flatMap]
    refine ⟨l, by simpa using hl, ?_⟩
    have hodd : ¬ l % 2 = 1 := by omega
    have hlbl : chainLabel target l = 0 := by
      simp [chainLabel, hodd, STC_BLANK_IDX]
    simp [chainArcsAt, hlbl, STC_BLANK_IDX]
  · intro l hl0 hl
    apply List.mem_append_left
    rw [List.mem_flatMap]
    refine ⟨l, by simpa using hl, ?_⟩
    simp only [chainArcsAt, STC_BLANK_IDX, List.mem_append]
    left; right
    simp [hl0]

/-- C4 witness: the base-chain facts evaluated on the concrete target [5] with
star index 7, namely the blank self-loop on state 0 and the arc from state 0
into token state 1 labeled 5. -/
theorem C4_witness :
    Arc.mk 0 0 0 0 (0 : Int) ∈ (STCLossFunction.create_stc_graph [5] 7 (2 : Int)).arcs
    ∧ Arc.mk 0 1 5 5 (0 : Int) ∈ (STCLossFunction.create_stc_graph [5] 7 (2 : Int)).arcs :=
  ⟨(C4_base_chain [5] 7 (2 : Int)).2.2.2.1 0 (by decide) (by decide),
   (C4_base_chain [5] 7 (2 : Int)).2.2.2.2 1 (by decide) (by decide)⟩

/-- C3: for a target of length L the builder allocates exactly L+1 extra star
states (the graph has 2L+1 chain nodes followed by L+1 star nodes), the star
node of gap l sits at index S+l, is never a start state and is an accept
state exactly at the final gap l = L; it carries a self-loop at the penalty
weight, an entry arc from chain state 2l and (when l > 0) from chain state
2l-1 at the penalty weight, a blank exit arc to the blank chain state 2l,
and at internal gaps l < L an arc into chain state 2l+1 labeled with the
following target token. -/
theorem C3_star_states {W : Type} [Zero W] (target : List Nat) (star_idx : Nat) (w : W) :
    (STCLossFunction.create_stc_graph target star_idx w).nodes.length
        = (2 * target.length + 1) + (target.length + 1)
    ∧ (∀ l, l ≤ target.length →
        (STCLossFunction.create_stc_graph target star_idx w).nodes.getD
            (2 * target.length + 1 + l) (false, false)
          = (false, decide (l = target.length)))
    ∧ (∀ l, l ≤ target.length →
        Arc.mk (2 * target.length + 1 + l) (2 * target.length + 1 + l)
            (starIdxLabel target star_idx target.length l)
            (starIdxLabel target star_idx target.length l) w
          ∈ (STCLossFunction.create_stc_graph target star_idx w).arcs
        ∧ Arc.mk (2 * l) (2 * target.length + 1 + l)
            (starIdxLabel target star_idx target.length l)
            (starIdxLabel target star_idx target.length l) w
          ∈ (STCLossFunction.create_stc_graph target star_idx w).arcs
        ∧ (0 < l →
            Arc.mk (2 * l - 1) (2 * target.length + 1 + l)
                (starIdxLabel target star_idx target.length l)
                (starIdxLabel target star_idx target.length l) w
              ∈ (STCLossFunction.create_stc_graph target star_idx w).arcs)
        ∧ Arc.mk (2 * target.length + 1 + l) (2 * l) 0 0 (0 : W)
          ∈ (STCLossFunction.create_stc_graph target star_idx w).arcs
        ∧ (l < target.length →
            Arc.mk (2 * target.length + 1 + l) (2 * l + 1) (target.getD l 0)
                (target.getD l 0) (0 : W)
              ∈ (STCLossFunction.create_stc_graph target star_idx w).arcs)) := by
  rw [create_stc_graph_eq]
  refine ⟨by simp, ?_, ?_⟩
  · intro l hl
    rw [getD_append_right_map_range _ _ _ _ _ (by omega)]
    rw [show 2 * target.length + 1 + l - (2 * target.length + 1) = l by omega]
    rw [getD_map_range _ _ _ _ (by omega)]
    rfl
  · intro l hl
    have hmem : ∀ a : Arc W, a ∈ starArcsAt target star_idx w target.length
        (2 * target.length + 1) l →
        a ∈ (List.range (2 * target.length + 1)).flatMap (chainArcsAt target) ++
          (List.range (target.length + 1)).flatMap
            (starArcsAt target star_idx w target.length (2 * target.length + 1)) := by
      intro a ha
      apply List.mem_append_right
      rw [List.mem_flatMap]
      exact ⟨l, by simp; omega, ha⟩
    refine ⟨hmem _ ?_, hmem _ ?_, fun hl0 => hmem _ ?_, hmem _ ?_, fun hlt => hmem _ ?_⟩
    · simp [starArcsAt, STC_BLANK_IDX, Nat.add_comm]
    · simp [starArcsAt, STC_BLANK_IDX, Nat.add_comm]
    · simp [starArcsAt, STC_BLANK_IDX, hl0, Nat.add_comm]
    · simp [starArcsAt, STC_BLANK_IDX, Nat.add_comm]
    · simp [starArcsAt, STC_BLANK_IDX, hlt, Nat.add_comm]

/-- C3 witness: the star facts evaluated on the concrete target [4] with star
index 9 and penalty weight 2, at the final gap l = 1 = L: the star node index
is 4,  its self-loop, its entry arcs from chain states 2 and 1, and its blank
exit arc to chain state 2 are present. -/
theorem C3_witness :
    Arc.mk 4 4 9 9 (2 : Int) ∈ (STCLossFunction.create_stc_graph [4] 9 (2 : Int)).arcs
    ∧ Arc.mk 2 4 9 9 (2 : Int) ∈ (STCLossFunction.create_stc_graph [4] 9 (2 : Int)).arcs
    ∧ Arc.mk 1 4 9 9 (2 : Int) ∈ (STCLossFunction.create_stc_graph [4] 9 (2 : Int)).arcs
    ∧ Arc.mk 4 2 0 0 (0 : Int) ∈ (STCLossFunction.create_stc_graph [4] 9 (2 : Int)).arcs :=
  ⟨((C3_star_states [4] 9 (2 : Int)).2.2 1 (by decide)).1,
   ((C3_star_states [4] 9 (2 : Int)).2.2 1 (by decide)).2.1,
   ((C3_star_states [4] 9 (2 : Int)).2.2 1 (by decide)).2.2.1 (by decide),
   ((C3_star_states [4] 9 (2 : Int)).2.2 1 (by decide)).2.2.2.1⟩

/-- C1 counterexample: for the target [2, 2], whose two adjacent tokens are
equal, the builder nevertheless adds the skip arc from token state 1 to token
state 3 labeled 2, so an arc does merge two equal adjacent tokens without an
intervening blank state; the claim that no such arc is ever added is false. -/
theorem C1_counterexample :
    Arc.mk 1 3 2 2 (0 : Int) ∈ (STCLossFunction.create_stc_graph [2, 2] 3 (0 : Int)).arcs
    ∧ [2, 2].getD 0 0 = [2, 2].getD 1 0 := by
  constructor
  · decide
  · rfl

/-- C1 amended: within the base chain (destination below S = 2L+1), an arc
from l-2 to l exists exactly when l is odd and 1 < l, with no condition on
the equality of the two adjacent target tokens; when present it is labeled
with the target token at position (l-1)/2. -/
theorem C1_skip_arcs {W : Type} [Zero W] (target : List Nat) (star_idx : Nat) (w : W)
    (l : Nat) (h1 : 1 < l) (h2 : l < 2 * target.length + 1) :
    ((∃ a ∈ (STCLossFunction.create_stc_graph target star_idx w).arcs,
        a.src = l - 2 ∧ a.dst = l) ↔ l % 2 = 1)
    ∧ (l % 2 = 1 →
        Arc.mk (l - 2) l (target.getD ((l - 1) / 2) 0) (target.getD ((l - 1) / 2) 0) (0 : W)
          ∈ (STCLossFunction.create_stc_graph target star_idx w).arcs) := by
  rw [create_stc_graph_eq]
  have hskip : ∀ hodd : l % 2 = 1,
      Arc.mk (l - 2) l (target.getD ((l - 1) / 2) 0) (target.getD ((l - 1) / 2) 0) (0 : W)
        ∈ (List.range (2 * target.length + 1)).flatMap (chainArcsAt target) ++
          (List.range (target.length + 1)).flatMap
            (starArcsAt target star_idx w target.length (2 * target.length + 1)) := by
    intro hodd
    apply List.mem_append_left
    rw [List.mem_flatMap]
    refine ⟨l, by simpa using h2, ?_⟩
    have hlbl : chainLabel target l = target.getD ((l - 1) / 2) 0 := by
      simp [chainLabel, hodd]
    simp only [chainArcsAt, hlbl, List.mem_append]
    right
    simp [hodd, h1]
  constructor
  · constructor
    · rintro ⟨a, ha, hsrc, hdst⟩
      by_contra hnot
      rw [List.mem_append] at ha
      rcases ha with hchain | hstar
      · rw [List.mem_flatMap] at hchain
        obtain ⟨j, hj, hmem⟩ := hchain
        rw [List.mem_range] at hj
        simp only [chainArcsAt, List.mem_append, List.mem_ite_nil_right,
          List.mem_singleton] at hmem
        rcases hmem with (⟨-, rfl⟩ | ⟨-, rfl⟩) | ⟨hcond, rfl⟩ <;>
          simp only [] at hsrc hdst <;> omega
      · rw [List.mem_flatMap] at hstar
        obtain ⟨j, hj, hmem⟩ := hstar
        rw [List.mem_range] at hj
        simp only [starArcsAt, starIdxLabel, STC_BLANK_IDX, List.mem_append,
          List.mem_ite_nil_right, List.mem_singleton, List.mem_cons,
          List.not_mem_nil, or_false] at hmem
        rcases hmem with ((⟨-, rfl⟩ | rfl | rfl) | ⟨-, rfl⟩) | rfl <;>
          simp only [] at hsrc hdst <;> omega
    · intro hodd
      exact ⟨_, hskip hodd, rfl, rfl⟩
  · exact hskip

/-- C1 witness: the amended skip-arc characterization evaluated on the
concrete target [2, 2] at the odd chain position l = 3. -/
theorem C1_witness :
    ((∃ a ∈ (STCLossFunction.create_stc_graph [2, 2] 3 (0 : Int)).arcs,
        a.src = 3 - 2 ∧ a.dst = 3) ↔ 3 % 2 = 1)
    ∧ (3 % 2 = 1 →
        Arc.mk (3 - 2) 3 ([2, 2].getD ((3 - 1) / 2) 0) ([2, 2].getD ((3 - 1) / 2) 0) (0 : Int)
          ∈ (STCLossFunction.create_stc_graph [2, 2] 3 (0 : Int)).arcs) :=
  C1_skip_arcs [2, 2] 3 (0 : Int) 3 (by decide) (by decide)

/-- C9 counterexample: the constructor does raise on a non-zero blank index
(the source asserts blank_idx == STC_BLANK_IDX), so the claim that no
operation of the core raises an error on a non-zero blank index is false. -/
theorem C9_counterexample :
    STC.init 1 1 1 1 "none" = Except.error "AssertionError" := rfl

/-- C9 amended: a non-zero blank index is rejected at runtime by the
constructor with an AssertionError, while blank index 0 is accepted; the
check is a runtime assertion, not an unchecked caller contract. -/
theorem C9_blank_idx_checked (b : Nat) (p0 plast thalf : Real) (r : String) :
    (b ≠ 0 → STC.init b p0 plast thalf r = Except.error "AssertionError")
    ∧ (b = 0 → STC.init b p0 plast thalf r
        = Except.ok ⟨p0, plast, thalf, 0, r, true, none⟩) := by
  constructor <;> intro h <;> simp [STC.init, STC_BLANK_IDX, h]

/-- C9 witness: the amended statement evaluated at the concrete blank index
2. -/
theorem C9_witness :
    STC.init 2 1 1 1 "mean" = Except.error "AssertionError" :=
  (C9_blank_idx_checked 2 1 1 1 "mean").1 (by decide)

theorem log_one_add_eps_lt_one : Real.log (1 + stcEps) < 1 := by
  have h1 : (1 : Real) + stcEps < Real.exp 1 := by
    have hd := Real.exp_one_gt_d9
    have : (2.7182818283 : Real) > 1 + stcEps := by norm_num [stcEps]
    linarith
  have h2 : Real.log (1 + stcEps) < Real.log (Real.exp 1) :=
    Real.log_lt_log (by norm_num [stcEps]) h1
  simpa [Real.log_exp] using h2

/-- C6 counterexample: at a = 0 and b = 1 the argument b exceeds a by more
than the stabilization epsilon (1 - 0 is above log(1 + 1e-7)), yet logsubexp
does not fail: it returns the value a + log1p(1e-7 - exp(b - a)), whose
log1p argument is below -1 (a NaN in floating point), so the computation
does not fail fast with an error. -/
theorem C6_counterexample :
    Real.log (1 + stcEps) < 1 - 0
    ∧ 1 + (stcEps - Real.exp ((1 : Real) - 0)) < 0
    ∧ STC.logsubexp 0 1 = 0 + Real.log (1 + (stcEps - Real.exp (1 - 0))) := by
  refine ⟨by simpa using log_one_add_eps_lt_one, ?_, rfl⟩
  have hd := Real.exp_one_gt_d9
  have h1 : Real.exp ((1 : Real) - 0) = Real.exp 1 := by norm_num
  rw [h1]
  have : (2.7182818283 : Real) > 1 + stcEps := by norm_num [stcEps]
  linarith

/-- C6 amended: logsubexp performs no precondition check; whenever b exceeds
a by more than the stabilization epsilon (b - a above log(1 + 1e-7)), it
still returns a + log1p(1e-7 - exp(b - a)), whose log1p argument is below
-1 and hence outside the real domain of log1p (NaN in floating point); no
error is raised. -/
theorem C6_logsubexp_no_failfast (a b : Real) (h : Real.log (1 + stcEps) < b - a) :
    1 + (stcEps - Real.exp (b - a)) < 0
    ∧ STC.logsubexp a b = a + Real.log (1 + (stcEps - Real.exp (b - a))) := by
  refine ⟨?_, rfl⟩
  have h0 : (0 : Real) < 1 + stcEps := by norm_num [stcEps]
  have h1 : (1 : Real) + stcEps < Real.exp (b - a) := by
    calc (1 : Real) + stcEps = Real.exp (Real.log (1 + stcEps)) := (Real.exp_log h0).symm
    _ < Real.exp (b - a) := Real.exp_lt_exp.mpr h
  linarith

/-- C6 witness: the amended statement evaluated at a = 3 and b = 5. -/
theorem C6_witness :
    1 + (stcEps - Real.exp ((5 : Real) - 3)) < 0
    ∧ STC.logsubexp 3 5 = 3 + Real.log (1 + (stcEps - Real.exp (5 - 3))) :=
  C6_logsubexp_no_failfast 3 5 (by
    have := log_one_add_eps_lt_one
    have h2 : (1 : Real) < 5 - 3 := by norm_num
    linarith)

/-- C2 counterexample: for a batch whose single target literally references
the classes 0, 3 and 5 out of C = 50, the selection list is [0, 0, 3, 5]
(the blank is prepended unconditionally and class 0 is kept again as a
referenced token), so the reduced emission input has width 4 + 1 + 3 = 8,
not 7. -/
theorem C2_counterexample :
    ¬ (reducedTensor ⟨1, 1, 50, fun _ _ _ => 0⟩ [[0, 3, 5]]).d2 = 7 := by
  decide

/-- C2 amended: for the batch with targets [[0, 3, 5]] and C = 50 the
selection list is [0, 0, 3, 5] and the reduced emission input has width 8:
first the four selected channels (in selection-list order), then one
wildcard channel equal to logsumexp over all non-blank classes of the
original log-probabilities, then one channel logsubexp(wildcard, class
log-probability) for every selection-list entry after the first (including
the duplicated blank entry). -/
theorem C2_reduced_structure (x : Tensor3) (hC : x.d2 = 50) (b t : Nat) :
    (reducedTensor x [[0, 3, 5]]).d2 = 8
    ∧ selectIdx [[0, 3, 5]] = [0, 0, 3, 5]
    ∧ (∀ k, k < 4 → (reducedTensor x [[0, 3, 5]]).val b t k
        = x.val b t ([0, 0, 3, 5].getD k 0))
    ∧ (reducedTensor x [[0, 3, 5]]).val b t 4
        = Real.log (∑ c ∈ Finset.Ico 1 50, Real.exp (x.val b t c))
    ∧ (∀ k, 4 < k → k < 8 → (reducedTensor x [[0, 3, 5]]).val b t k
        = STC.logsubexp (Real.log (∑ c ∈ Finset.Ico 1 50, Real.exp (x.val b t c)))
            (x.val b t ([0, 0, 3, 5].getD (k - 4) 0))) := by
  have hsel : selectIdx [[0, 3, 5]] = [0, 0, 3, 5] := by decide
  refine ⟨?_, hsel, ?_, ?_, ?_⟩
  · simp [reducedTensor, hsel]
  · intro k hk
    simp only [reducedTensor, hsel, wildcardLse, hC]
    rw [if_pos (by simpa using hk)]
  · simp only [reducedTensor, hsel, wildcardLse, hC]
    rw [if_neg (by simp), if_pos (by simp)]
  · intro k hk1 hk2
    simp only [reducedTensor, hsel, wildcardLse, hC]
    rw [if_neg (by simp; omega), if_neg (by simp; omega)]
    norm_num

/-- C2 witness: the amended statement evaluated on a concrete all-zero
(1, 1, 50) input tensor. -/
theorem C2_witness :
    (reducedTensor ⟨1, 1, 50, fun _ _ _ => 0⟩ [[0, 3, 5]]).d2 = 8
    ∧ selectIdx [[0, 3, 5]] = [0, 0, 3, 5] :=
  ⟨(C2_reduced_structure ⟨1, 1, 50, fun _ _ _ => 0⟩ rfl 0 0).1,
   (C2_reduced_structure ⟨1, 1, 50, fun _ _ _ => 0⟩ rfl 0 0).2.1⟩

/-- C8: a reduction outside none/mean makes the loss forward pass fail with
the ValueError raised inside the per-example worker (hence for any nonempty
batch); with mean reduction and T above 0 the returned loss is the
none-reduction loss divided by T (every per-example loss is scaled by 1/T),
and the backward gradients under mean reduction are the none-reduction
gradients divided by T, while none leaves both unscaled. -/
theorem C8_reduction_modes (x : Tensor3) (tg : List (List Nat)) (prob : Real)
    (r : String) (g0 : Nat → Nat → Nat → Real) :
    (r ≠ "none" → r ≠ "mean" → 0 < x.d0 →
      STCLossFunction.forward x tg prob r = Except.error "invalid value for reduction")
    ∧ (0 < x.d1 →
      STCLossFunction.forward x tg prob "mean"
        = (STCLossFunction.forward x tg prob "none").map (fun v => v / (x.d1 : Real)))
    ∧ (0 < x.d1 → ∀ b t c,
      STCLossFunction.backward x tg prob "mean" g0 b t c
        = STCLossFunction.backward x tg prob "none" g0 b t c / x.d1) := by
  refine ⟨?_, ?_, ?_⟩
  · intro h1 h2 h3
    simp only [STCLossFunction.forward]
    rw [if_pos ⟨h1, h2, h3⟩]
  · intro hT
    have h2 : ¬(("mean" : String) ≠ "none" ∧ ("mean" : String) ≠ "mean" ∧ 0 < x.d0) := by
      simp
    have h3 : ¬(("none" : String) ≠ "none" ∧ ("none" : String) ≠ "mean" ∧ 0 < x.d0) := by
      simp
    have h4 : ¬(("none" : String) = "mean" ∧ 0 < x.d1) := by simp
    simp only [STCLossFunction.forward, Except.map, if_neg h2, if_neg h3, true_and,
      if_pos hT, if_neg h4, mul_one, Except.ok.injEq]
    rw [← Finset.sum_mul]
    ring
  · intro hT b t c
    have h4 : ¬(("none" : String) = "mean" ∧ 0 < x.d1) := by simp
    simp only [STCLossFunction.backward, true_and, if_pos hT, if_neg h4, mul_one]
    ring

/-- C8 witness: the reduction-mode facts evaluated on a concrete (1, 1, 2)
input: the reduction string sum fails, and the mean loss is the none loss
divided by T = 1. -/
theorem C8_witness :
    STCLossFunction.forward ⟨1, 1, 2, fun _ _ _ => 0⟩ [[]] 1 "sum"
        = Except.error "invalid value for reduction"
    ∧ STCLossFunction.forward ⟨1, 1, 2, fun _ _ _ => 0⟩ [[]] 1 "mean"
        = (STCLossFunction.forward ⟨1, 1, 2, fun _ _ _ => 0⟩ [[]] 1 "none").map
            (fun v => v / (((⟨1, 1, 2, fun _ _ _ => 0⟩ : Tensor3).d1 : Nat) : Real)) :=
  ⟨(C8_reduction_modes ⟨1, 1, 2, fun _ _ _ => 0⟩ [[]] 1 "sum" (fun _ _ _ => 0)).1
      (by decide) (by decide) (by decide),
   (C8_reduction_modes ⟨1, 1, 2, fun _ _ _ => 0⟩ [[]] 1 "sum" (fun _ _ _ => 0)).2.1
      (by decide)⟩

theorem decodeStep_foldl_inv (tokAt : Nat → Nat) (ovs : Nat)
    (htok : ∀ t, tokAt t = 0 ∨ tokAt t < ovs) :
    ∀ (ts : List Nat) (acc : List Nat × Option Nat),
      ((ts.foldl (decodeStep tokAt) acc).1.length ≤ acc.1.length + ts.length)
      ∧ (∀ x ∈ (ts.foldl (decodeStep tokAt) acc).1, x ∈ acc.1 ∨ (x ≠ 0 ∧ x < ovs)) := by
  intro ts
  induction ts with
  | nil =>
      intro acc
      refine ⟨by simp, ?_⟩
      intro x hx
      exact Or.inl (by simpa using hx)
  | cons t ts ih =>
      intro acc
      rw [List.foldl_cons]
      have hstep : (decodeStep tokAt acc t).1.length ≤ acc.1.length + 1 := by
        simp only [decodeStep, STC_BLANK_IDX]
        split
        · simp
        · simp
      have hmem : ∀ x ∈ (decodeStep tokAt acc t).1, x ∈ acc.1 ∨ (x ≠ 0 ∧ x < ovs) := by
        intro x hx
        simp only [decodeStep, STC_BLANK_IDX] at hx
        split at hx
        · rw [List.mem_append, List.mem_singleton] at hx
          rcases hx with hx | rfl
          · exact Or.inl hx
          · rename_i hcond
            rcases htok t with h0 | hlt
            · exact absurd h0 hcond.2
            · exact Or.inr ⟨hcond.2, hlt⟩
        · exact Or.inl hx
      constructor
      · have h1 := (ih (decodeStep tokAt acc t)).1
        simp only [List.length_cons]
        omega
      · intro x hx
        rcases (ih (decodeStep tokAt acc t)).2 x hx with hin | hgood
        · rcases hmem x hin with hin2 | hgood2
          · exact Or.inl hin2
          · exact Or.inr hgood2
        · exact Or.inr hgood

/-- C10: every sequence returned by the greedy viterbi decoder contains no
blank token (no element is 0), every element is strictly below the resolved
original vocabulary size (the stored value when present), and the sequence
length is at most T, the number of timesteps of the input. -/
theorem C10_viterbi_decoded (α : Type) [LinearOrder α] (lastOrig : Option Nat)
    (x : TensorF α) :
    ∀ seq ∈ STC.viterbi lastOrig x,
      seq.length ≤ x.d0
      ∧ ∀ tok ∈ seq, tok ≠ 0 ∧ tok < resolveVocab lastOrig x.d2 := by
  intro seq hseq
  simp only [STC.viterbi, permute102, List.mem_map, List.mem_range] at hseq
  obtain ⟨b, hb, rfl⟩ := hseq
  have htok : ∀ t,
      (fun t =>
        let tok := argmaxIdx ((List.range
          (min (resolveVocab lastOrig x.d2) x.d2)).map (fun c => x.val t b c))
        if resolveVocab lastOrig x.d2 ≤ tok then STC_BLANK_IDX else tok) t = 0
      ∨ (fun t =>
        let tok := argmaxIdx ((List.range
          (min (resolveVocab lastOrig x.d2) x.d2)).map (fun c => x.val t b c))
        if resolveVocab lastOrig x.d2 ≤ tok then STC_BLANK_IDX else tok) t
          < resolveVocab lastOrig x.d2 := by
    intro t
    simp only [STC_BLANK_IDX]
    split
    · exact Or.inl rfl
    · rename_i hcond
      exact Or.inr (by omega)
  have h := decodeStep_foldl_inv _ (resolveVocab lastOrig x.d2) htok
    (List.range x.d0) ([], none)
  constructor
  · have := h.1
    simpa using this
  · intro tok htokmem
    rcases h.2 tok htokmem with h0 | h1
    · simp at h0
    · exact h1

/-- C10 witness: the decoder facts evaluated on a concrete all-zero
(1, 1, 1) input over the naturals with stored vocabulary size 1; the decoded
batch is a single empty sequence. -/
theorem C10_witness :
    ([] : List Nat).length ≤ (⟨1, 1, 1, fun _ _ _ => 0⟩ : TensorF Nat).d0
    ∧ ∀ tok ∈ ([] : List Nat), tok ≠ 0 ∧ tok < resolveVocab (some 1)
        (⟨1, 1, 1, fun _ _ _ => 0⟩ : TensorF Nat).d2 :=
  C10_viterbi_decoded Nat (some 1) ⟨1, 1, 1, fun _ _ _ => 0⟩ [] (by decide)

theorem stc_tiny_graph (p : Real) :
    STCLossFunction.create_stc_graph ([] : List Nat) 1 (Real.log p) =
      ⟨[(true, true), (false, true)],
       [⟨0, 0, 0, 0, 0⟩, ⟨0, 1, 1, 1, Real.log p⟩, ⟨1, 1, 1, 1, Real.log p⟩,
        ⟨1, 0, 0, 0, 0⟩]⟩ := by
  rw [create_stc_graph_eq]
  rfl

theorem stc_tiny_emis0 :
    (permute102 (reducedTensor (permute102
        ⟨1, 1, 2, fun _ _ _ => Real.log (1 / 2)⟩) [[]])).val 0 0 0 = Real.log (1 / 2) := by
  simp [permute102, reducedTensor, selectIdx]

theorem stc_tiny_emis1 :
    (permute102 (reducedTensor (permute102
        ⟨1, 1, 2, fun _ _ _ => Real.log (1 / 2)⟩) [[]])).val 0 0 1 = Real.log (1 / 2) := by
  simp only [permute102, reducedTensor, selectIdx, wildcardLse]
  norm_num

theorem stc_tiny_loss (p : Real) (hp : 0 < p) :
    STCLossFunction.forward (permute102 (reducedTensor (permute102
        ⟨1, 1, 2, fun _ _ _ => Real.log (1 / 2)⟩) [[]])) [[]] p "none"
      = Except.ok (-Real.log (1 / 2 + p * (1 / 2))) := by
  have hd0 : (permute102 (reducedTensor (permute102
      ⟨1, 1, 2, fun _ _ _ => Real.log (1 / 2)⟩) [[]])).d0 = 1 := rfl
  have hd1 : (permute102 (reducedTensor (permute102
      ⟨1, 1, 2, fun _ _ _ => Real.log (1 / 2)⟩) [[]])).d1 = 1 := rfl
  have hd2 : (permute102 (reducedTensor (permute102
      ⟨1, 1, 2, fun _ _ _ => Real.log (1 / 2)⟩) [[]])).d2 = 2 := rfl
  have hfront : pathFront (STCLossFunction.create_stc_graph ([] : List Nat) 1 (Real.log p))
      1 2 (fun t c => (permute102 (reducedTensor (permute102
        ⟨1, 1, 2, fun _ _ _ => Real.log (1 / 2)⟩) [[]])).val 0 t c)
      = [(0, 0 + 0 + Real.log (1 / 2)), (1, 0 + Real.log p + Real.log (1 / 2))] := by
    rw [pathFront, show List.range 1 = [0] from rfl, List.foldl_cons, List.foldl_nil]
    rw [stc_tiny_graph]
    simp only [startPairs, pathExtend, List.enum, List.filter, List.flatMap]
    norm_num [stc_tiny_emis0, stc_tiny_emis1]
  simp only [STCLossFunction.forward, hd0, hd1, hd2]
  rw [if_neg (by simp)]
  congr 1
  rw [Finset.sum_range_one]
  norm_num
  simp only [exampleLoss, composedScore]
  rw [hfront, stc_tiny_graph]
  norm_num [List.filter, Real.exp_add, Real.exp_log hp,
    Real.exp_log (show (0 : Real) < 1 / 2 by norm_num)]

theorem stc_tiny_forward (n : Nat) (lov : Option Nat) :
    STC.forward ⟨3, 1, 1, n, "none", true, lov⟩
        ⟨1, 1, 2, fun _ _ _ => Real.log (1 / 2)⟩ [[]]
      = (Except.ok (-Real.log (1 / 2 +
          (1 + 2 * Real.exp (-((n : Real) + 1) * Real.log 2)) * (1 / 2))),
         ⟨3, 1, 1, n + 1, "none", true, some 1⟩) := by
  simp only [STC.forward]
  norm_num
  refine ⟨?_, rfl⟩
  rw [stc_tiny_loss _ (by positivity)]

/-- C5 counterexample: with penalty schedule p0 = 3, plast = 1, thalf = 1 and
a module in training mode, two calls of the loss forward pass on the same
(T, B, C) = (1, 1, 2) input with uniform log-probabilities and the same empty
target produce different loss values (-log(3/2), then -log(5/4)), because
each training-mode call increments the hidden step counter and thereby decays
the token insertion penalty. -/
theorem C5_counterexample :
    (STC.forward ((STC.forward ⟨3, 1, 1, 0, "none", true, none⟩
          ⟨1, 1, 2, fun _ _ _ => Real.log (1 / 2)⟩ [[]]).2)
        ⟨1, 1, 2, fun _ _ _ => Real.log (1 / 2)⟩ [[]]).1
      ≠ (STC.forward ⟨3, 1, 1, 0, "none", true, none⟩
          ⟨1, 1, 2, fun _ _ _ => Real.log (1 / 2)⟩ [[]]).1 := by
  have h1 := stc_tiny_forward 0 none
  have h2 := stc_tiny_forward 1 (some 1)
  simp only [h1]
  norm_num
  simp only [h2]
  norm_num
  have e1 : Real.exp (-Real.log 2) = 1 / 2 := by
    rw [Real.exp_neg, Real.exp_log (by norm_num : (0 : Real) < 2)]
    norm_num
  have e2 : Real.exp (-(2 * Real.log 2)) = 1 / 4 := by
    rw [show (2 * Real.log 2 : Real) = Real.log 2 + Real.log 2 by ring, Real.exp_neg,
      Real.exp_add, Real.exp_log (by norm_num : (0 : Real) < 2)]
    norm_num
  rw [e1, e2]
  norm_num
  intro h
  have h5 := congrArg Real.exp h
  rw [Real.exp_log (by norm_num), Real.exp_log (by norm_num)] at h5
  norm_num at h5

/-- C5 amended: when the module is not in training mode the step counter is
not incremented, and a second call with identical inputs, targets and
configuration returns the identical loss (the only state change of a call is
storing the selection-list length, which does not influence the loss); in
training mode the hidden step counter makes repeated identical calls differ,
as the counterexample shows. -/
theorem C5_eval_deterministic (s : STCState) (x : Tensor3) (tg : List (List Nat))
    (h : s.training = false) :
    (STC.forward ((STC.forward s x tg).2) x tg).1 = (STC.forward s x tg).1 := by
  obtain ⟨p0, plast, thalf, nstep, red, tr, lov⟩ := s
  simp only at h
  subst h
  rfl

/-- C5 witness: the amended determinism statement evaluated on a concrete
evaluation-mode state and a concrete (1, 1, 2) input. -/
theorem C5_witness :
    (STC.forward ((STC.forward ⟨3, 1, 1, 0, "none", false, none⟩
          ⟨1, 1, 2, fun _ _ _ => 0⟩ [[]]).2)
        ⟨1, 1, 2, fun _ _ _ => 0⟩ [[]]).1
      = (STC.forward ⟨3, 1, 1, 0, "none", false, none⟩
          ⟨1, 1, 2, fun _ _ _ => 0⟩ [[]]).1 :=
  C5_eval_deterministic ⟨3, 1, 1, 0, "none", false, none⟩ ⟨1, 1, 2, fun _ _ _ => 0⟩
    [[]] rfl
